import Mathlib

/-!
Shallow embedding of the CQRS dispatcher in `src/cqrs.rs`
(`CqrsFramework::execute`, `load_aggregate`, `wrap_events`, `duplicate`),
together with theorems settling the specification claims about it.

The external collaborators (event store, command handler, metadata
supplier, projection sink) are modelled as pure data supplied in a
`Collab` record; `execute` returns a `Trace` recording every observable
interaction of one dispatch (the batch passed to `commit`, the batch
passed to the view processor's `dispatch`, the number of metadata
supplier calls, and the value of the in-memory aggregate at the point
the dispatcher discards it).
-/

namespace Cqrs

/-- Modelled from the spec: the Event Envelope (`MessageEnvelope` in
`src/event.rs`, which is not among the provided sources). Per the spec it
wraps a Domain Event with the aggregate identity in string form, the
aggregate type name, a per-aggregate sequence number, and a metadata
mapping of string to string; the fields and their uses match the
construction site in `wrap_events` (src/cqrs.rs lines 84-92). -/
structure MessageEnvelope (E : Type) where
  aggregate_id : String
  sequence : Nat
  aggregate_type : String
  payload : E
  metadata : List (String × String)
deriving Repr, DecidableEq

/-- One dispatch context of `CqrsFramework<I, A, E, ES, M>`: the external
collaborators, restricted to the single aggregate identity the dispatch
works on, given as pure data.

* `history` is what `store.load(aggregate_id)` returns for this identity.
* `dflt` is `A::default()`.
* `apply` is `DomainEvent::apply` (`event.apply(&mut aggregate)`),
  given as a state transformer.
* `handle` is `Command::handle(&mut aggregate)`: it receives the
  aggregate, may mutate it (the returned `A`), and yields the resultant
  events or an error.
* `supply` gives the result of the i-th call (0-based, within this
  dispatch) to `MetadataSupplier::supply()`; the supplier may vary per
  call.
* `commitResult` is the outcome of `store.commit(batch)` for a given
  batch.
* `idString` is `aggregate_id.to_string()` and `aggregate_type` is
  `aggregate_id.aggregate_type().to_string()`, both pure per the spec. -/
structure Collab (A E Err : Type) where
  history : List (MessageEnvelope E)
  dflt : A
  apply : E → A → A
  handle : A → Except Err (A × List E)
  supply : Nat → List (String × String)
  commitResult : List (MessageEnvelope E) → Except Err Unit
  idString : String
  aggregate_type : String

variable {A E Err : Type}

/-- `CqrsFramework::load_aggregate` (src/cqrs.rs lines 97-107):
starting from `A::default()` and `current_sequence = 0`, for each loaded
envelope set `current_sequence` to that envelope's `sequence` field and
apply its payload to the aggregate; return the pair. -/
def load_aggregate (c : Collab A E Err) : A × Nat :=
  c.history.foldl
    (fun st envelope => (c.apply envelope.payload st.1, envelope.sequence))
    (c.dflt, 0)

/-- The loop body of `CqrsFramework::wrap_events` (src/cqrs.rs lines
76-95), with the running sequence counter and, additionally, a counter
of metadata-supplier calls threaded through so that the number of calls
and which call produced which metadata are part of the result: the
second component of the result is the value of the call counter after
the loop, and each iteration performs exactly one `supply` call. -/
def wrapLoop (c : Collab A E Err) :
    Nat → Nat → List E → List (MessageEnvelope E) × Nat
  | _, calls, [] => ([], calls)
  | seq, calls, payload :: rest =>
      let sequence := seq + 1
      let metadata := c.supply calls
      let tailResult := wrapLoop c sequence (calls + 1) rest
      (⟨c.idString, sequence, c.aggregate_type, payload, metadata⟩ :: tailResult.1,
        tailResult.2)

/-- `CqrsFramework::wrap_events`: the envelope batch built from the
resultant events, with sequence numbers counting up from
`current_sequence + 1` and one metadata-supplier call per event. -/
def wrap_events (c : Collab A E Err) (current_sequence : Nat)
    (resultant_events : List E) : List (MessageEnvelope E) :=
  (wrapLoop c current_sequence 0 resultant_events).1

/-- The number of metadata-supplier calls `wrap_events` performs. -/
def supplierCallsOf (c : Collab A E Err) (current_sequence : Nat)
    (resultant_events : List E) : Nat :=
  (wrapLoop c current_sequence 0 resultant_events).2

/-- The clone of one envelope: `(*wrapped_event).clone()` in
`CqrsFramework::duplicate`, rebuilding the record field by field. -/
def cloneEnvelope (e : MessageEnvelope E) : MessageEnvelope E :=
  { aggregate_id := e.aggregate_id
    sequence := e.sequence
    aggregate_type := e.aggregate_type
    payload := e.payload
    metadata := e.metadata }

/-- `CqrsFramework::duplicate` (src/cqrs.rs lines 68-74): push a clone of
each envelope, in order, onto a fresh vector. -/
def duplicate (wrapped_events : List (MessageEnvelope E)) :
    List (MessageEnvelope E) :=
  wrapped_events.foldl (fun acc e => acc ++ [cloneEnvelope e]) []

/-- The observable interactions of one `execute` call:

* `result`: the returned `Result<(), AggregateError>`;
* `committed`: the batch passed to `store.commit`, or `none` when commit
  was never invoked;
* `dispatched`: the batch passed to `view.dispatch`, or `none` when the
  view processor was never invoked;
* `supplierCalls`: how many times `metadata_supplier.supply()` was
  called;
* `finalAggregate`: the value of the in-memory `aggregate` variable at
  the point `execute` discards it (after `command.handle` returned
  successfully), or `none` when `handle` failed. -/
structure Trace (A E Err : Type) where
  result : Except Err Unit
  committed : Option (List (MessageEnvelope E))
  dispatched : Option (List (MessageEnvelope E))
  supplierCalls : Nat
  finalAggregate : Option A

/-- `CqrsFramework::execute` (src/cqrs.rs lines 57-66): load the
aggregate and its current sequence, run the command handler (propagating
its error via `?`), wrap the resultant events, duplicate the batch,
commit the original batch (propagating a store error via `?`), and only
then dispatch the duplicated batch to the view processor. -/
def execute (c : Collab A E Err) : Trace A E Err :=
  let loaded := load_aggregate c
  match c.handle loaded.1 with
  | Except.error e =>
      { result := Except.error e
        committed := none
        dispatched := none
        supplierCalls := 0
        finalAggregate := none }
  | Except.ok handled =>
      let wrapped := wrapLoop c loaded.2 0 handled.2
      let committed_events := duplicate wrapped.1
      match c.commitResult wrapped.1 with
      | Except.error e =>
          { result := Except.error e
            committed := some wrapped.1
            dispatched := none
            supplierCalls := wrapped.2
            finalAggregate := some handled.1 }
      | Except.ok _ =>
          { result := Except.ok ()
            committed := some wrapped.1
            dispatched := some committed_events
            supplierCalls := wrapped.2
            finalAggregate := some handled.1 }

/-! ### Concrete dispatch contexts (used by the witness theorems) -/

/-- A successful dispatch: empty history, a command producing two events. -/
def cSuccess : Collab Nat Nat Unit where
  history := []
  dflt := 0
  apply := fun e a => a + e
  handle := fun a => Except.ok (a, [10, 20])
  supply := fun i => [("call", toString i)]
  commitResult := fun _ => Except.ok ()
  idString := "A-1"
  aggregate_type := "TestAgg"

/-- A dispatch whose command handler rejects the command. -/
def cHandleErr : Collab Nat Nat Unit where
  history := [⟨"B-1", 1, "TestAgg", 4, []⟩]
  dflt := 0
  apply := fun e a => a + e
  handle := fun _ => Except.error ()
  supply := fun _ => []
  commitResult := fun _ => Except.ok ()
  idString := "B-1"
  aggregate_type := "TestAgg"

/-- A dispatch whose store rejects the commit (e.g. a sequence conflict). -/
def cCommitErr : Collab Nat Nat Unit where
  history := [⟨"A-1", 1, "TestAgg", 7, []⟩]
  dflt := 0
  apply := fun e a => a + e
  handle := fun a => Except.ok (a, [7])
  supply := fun _ => []
  commitResult := fun _ => Except.error ()
  idString := "A-1"
  aggregate_type := "TestAgg"

/-- A dispatch over a two-event, ascending-sequence history whose command
produces no events. -/
def cSorted : Collab Nat Nat Unit where
  history := [⟨"A-1", 1, "TestAgg", 5, []⟩, ⟨"A-1", 2, "TestAgg", 6, []⟩]
  dflt := 0
  apply := fun e a => a + e
  handle := fun a => Except.ok (a, [])
  supply := fun _ => []
  commitResult := fun _ => Except.ok ()
  idString := "A-1"
  aggregate_type := "TestAgg"

/-- Replay context one: shares history, default and apply with `cRep2`
but differs in every other collaborator. -/
def cRep1 : Collab Nat Nat Unit where
  history := [⟨"C-1", 1, "TestAgg", 3, []⟩, ⟨"C-1", 2, "TestAgg", 9, []⟩]
  dflt := 0
  apply := fun e a => a * 2 + e
  handle := fun a => Except.ok (a, [1])
  supply := fun _ => [("k", "v")]
  commitResult := fun _ => Except.ok ()
  idString := "C-1"
  aggregate_type := "TestAgg"

/-- Replay context two: same history, default and apply as `cRep1`. -/
def cRep2 : Collab Nat Nat Unit where
  history := [⟨"C-1", 1, "TestAgg", 3, []⟩, ⟨"C-1", 2, "TestAgg", 9, []⟩]
  dflt := 0
  apply := fun e a => a * 2 + e
  handle := fun _ => Except.error ()
  supply := fun _ => []
  commitResult := fun _ => Except.error ()
  idString := "elsewhere"
  aggregate_type := "OtherName"

/-- A dispatch whose command leaves the aggregate untouched and produces
one event whose application would change the aggregate state. -/
def cNine : Collab Nat Nat Unit where
  history := []
  dflt := 0
  apply := fun e a => a + e
  handle := fun a => Except.ok (a, [5])
  supply := fun _ => []
  commitResult := fun _ => Except.ok ()
  idString := "A-1"
  aggregate_type := "TestAgg"

/-- A dispatch whose loaded history is gapped and not ascending: the
store returns sequence 7 first, then sequence 3. -/
def cGappy : Collab Nat Nat Unit where
  history := [⟨"A-1", 7, "TestAgg", 1, []⟩, ⟨"A-1", 3, "TestAgg", 2, []⟩]
  dflt := 0
  apply := fun e a => a + e
  handle := fun a => Except.ok (a, [9])
  supply := fun _ => []
  commitResult := fun _ => Except.ok ()
  idString := "A-1"
  aggregate_type := "TestAgg"

/-! ### Helper lemmas about the wrap loop -/

theorem wrapLoop_length (c : Collab A E Err) (seq calls : Nat) (ev : List E) :
    (wrapLoop c seq calls ev).1.length = ev.length := by
  induction ev generalizing seq calls with
  | nil => rfl
  | cons e rest ih => simp [wrapLoop, ih]

theorem wrapLoop_payloads (c : Collab A E Err) (seq calls : Nat) (ev : List E) :
    (wrapLoop c seq calls ev).1.map MessageEnvelope.payload = ev := by
  induction ev generalizing seq calls with
  | nil => rfl
  | cons e rest ih => simp [wrapLoop, ih]

theorem wrapLoop_sequences (c : Collab A E Err) (seq calls : Nat) (ev : List E) :
    (wrapLoop c seq calls ev).1.map MessageEnvelope.sequence =
      List.range' (seq + 1) ev.length := by
  induction ev generalizing seq calls with
  | nil => rfl
  | cons e rest ih => simp [wrapLoop, ih, List.range'_succ]

theorem wrapLoop_calls (c : Collab A E Err) (seq calls : Nat) (ev : List E) :
    (wrapLoop c seq calls ev).2 = calls + ev.length := by
  induction ev generalizing seq calls with
  | nil => simp [wrapLoop]
  | cons e rest ih => simp [wrapLoop, ih]; omega

theorem wrapLoop_metadata (c : Collab A E Err) (seq calls : Nat) (ev : List E) :
    (wrapLoop c seq calls ev).1.map MessageEnvelope.metadata =
      (List.range' calls ev.length).map c.supply := by
  induction ev generalizing seq calls with
  | nil => rfl
  | cons e rest ih => simp [wrapLoop, ih, List.range'_succ]

theorem wrapLoop_ids (c : Collab A E Err) (seq calls : Nat) (ev : List E) :
    (wrapLoop c seq calls ev).1.map MessageEnvelope.aggregate_id =
      List.replicate ev.length c.idString ∧
    (wrapLoop c seq calls ev).1.map MessageEnvelope.aggregate_type =
      List.replicate ev.length c.aggregate_type := by
  induction ev generalizing seq calls with
  | nil => exact ⟨rfl, rfl⟩
  | cons e rest ih =>
      have h := ih (seq + 1) (calls + 1)
      constructor <;> simp [wrapLoop, List.replicate_succ, h.1, h.2]

/-! ### Helper lemmas about the load fold -/

/-- A fold whose two state components evolve independently splits into a
pair of folds; this is the shape of `load_aggregate`, whose state is
`(aggregate, current_sequence)`. -/
theorem foldl_pair {α β γ : Type} (f : α → γ → α) (g : β → γ → β)
    (l : List γ) (a : α) (b : β) :
    l.foldl (fun st x => (f st.1 x, g st.2 x)) (a, b) =
      (l.foldl f a, l.foldl g b) := by
  induction l generalizing a b with
  | nil => rfl
  | cons x rest ih => simpa using ih (f a x) (g b x)

/-- `load_aggregate` splits into the pure state fold and the pure
sequence fold: the aggregate is the left fold of `apply` over the loaded
payloads from `A::default()`, and `current_sequence` is the fold that
merely keeps each envelope's `sequence` field. -/
theorem load_aggregate_split (c : Collab A E Err) :
    load_aggregate c =
      (c.history.foldl (fun a env => c.apply env.payload a) c.dflt,
       c.history.foldl (fun _ env => env.sequence) 0) := by
  unfold load_aggregate
  exact foldl_pair (fun a env => c.apply env.payload a)
    (fun _ env => env.sequence) c.history c.dflt 0

/-- The keep-the-last fold over a nonempty list returns the sequence
field of the last element, wherever the accumulator started. -/
theorem foldl_seq_last :
    ∀ (l : List (MessageEnvelope E)) (hne : l ≠ []) (s : Nat),
      l.foldl (fun _ env => env.sequence) s = (l.getLast hne).sequence := by
  intro l
  induction l with
  | nil => intro hne; exact absurd rfl hne
  | cons e rest ih =>
      intro hne s
      cases rest with
      | nil => rfl
      | cons f t =>
          rw [List.getLast_cons (by simp)]
          exact ih (by simp) e.sequence

/-- On a list whose sequences are pairwise nondecreasing and all at
least the starting accumulator, the keep-the-last fold agrees with the
running-maximum fold. -/
theorem foldl_seq_max_of_sorted :
    ∀ (l : List (MessageEnvelope E)) (s : Nat),
      l.Pairwise (fun x y => x.sequence ≤ y.sequence) →
      (∀ x ∈ l, s ≤ x.sequence) →
      l.foldl (fun _ env => env.sequence) s =
        (l.map MessageEnvelope.sequence).foldl Nat.max s := by
  intro l
  induction l with
  | nil => intro s _ _; rfl
  | cons e rest ih =>
      intro s hp hs
      rw [List.pairwise_cons] at hp
      have hse : Nat.max s e.sequence = e.sequence :=
        Nat.max_eq_right (hs e (by simp))
      simp only [List.foldl, List.map, hse]
      exact ih e.sequence hp.2 (fun x hx => hp.1 x hx)

/-- `duplicate` is the element-wise clone of the batch. -/
theorem duplicate_eq_map (l : List (MessageEnvelope E)) :
    duplicate l = l.map cloneEnvelope := by
  have h : ∀ (l acc : List (MessageEnvelope E)),
      l.foldl (fun acc e => acc ++ [cloneEnvelope e]) acc =
        acc ++ l.map cloneEnvelope := by
    intro l
    induction l with
    | nil => intro acc; simp
    | cons e rest ih => intro acc; simp [ih]
  simpa using h l []

/-- The clone of an envelope equals the original envelope, value for
value. -/
theorem cloneEnvelope_eq (e : MessageEnvelope E) : cloneEnvelope e = e := rfl

/-! ### Claim theorems -/

/-- C1: a successful `execute` of a command whose handler produced the
events `ev` (K = `ev.length`, any K) wraps and commits exactly K
envelopes, the i-th wrapping the i-th produced event, with sequence
numbers `current_sequence + 1, …, current_sequence + K`, contiguous and
strictly increasing (here written as `List.range'`); and an aggregate
with no prior events has `current_sequence = 0`, so its first new event
receives sequence 1. -/
theorem execute_commits_contiguous_sequences (c : Collab A E Err)
    (a : A) (ev : List E)
    (hh : c.handle (load_aggregate c).1 = Except.ok (a, ev))
    (h : (execute c).result = Except.ok ()) :
    (c.history = [] → (load_aggregate c).2 = 0) ∧
    ∃ b, (execute c).committed = some b ∧
      b.length = ev.length ∧
      b.map MessageEnvelope.payload = ev ∧
      b.map MessageEnvelope.sequence =
        List.range' ((load_aggregate c).2 + 1) ev.length := by
  refine ⟨fun he => by rw [load_aggregate_split, he]; rfl, ?_⟩
  cases hc : c.commitResult (wrapLoop c (load_aggregate c).2 0 ev).1 with
  | error e => simp [execute, hh, hc] at h
  | ok u =>
      refine ⟨(wrapLoop c (load_aggregate c).2 0 ev).1, ?_,
        wrapLoop_length c (load_aggregate c).2 0 ev,
        wrapLoop_payloads c (load_aggregate c).2 0 ev,
        wrapLoop_sequences c (load_aggregate c).2 0 ev⟩
      simp [execute, hh, hc]

/-- C1 witness: the command producing the two events `[10, 20]` on an
empty history commits exactly two envelopes wrapping them, with
sequences `[1, 2]`. -/
theorem execute_commits_contiguous_sequences_witness :
    (cSuccess.history = [] → (load_aggregate cSuccess).2 = 0) ∧
    ∃ b, (execute cSuccess).committed = some b ∧
      b.length = ([10, 20] : List Nat).length ∧
      b.map MessageEnvelope.payload = [10, 20] ∧
      b.map MessageEnvelope.sequence =
        List.range' ((load_aggregate cSuccess).2 + 1)
          ([10, 20] : List Nat).length :=
  execute_commits_contiguous_sequences cSuccess 0 [10, 20] rfl rfl

/-- C2: when the command handler fails, `execute` returns that same
error, commit is never invoked (so stored state is unchanged), the
projection sink is never invoked, no metadata-supplier call happens and
no envelopes are wrapped. -/
theorem execute_handler_error (c : Collab A E Err) (e : Err)
    (h : c.handle (load_aggregate c).1 = Except.error e) :
    execute c =
      { result := Except.error e
        committed := none
        dispatched := none
        supplierCalls := 0
        finalAggregate := none } := by
  simp [execute, h]

/-- C2 witness: the rejecting handler yields exactly the error trace. -/
theorem execute_handler_error_witness :
    execute cHandleErr =
      { result := Except.error ()
        committed := none
        dispatched := none
        supplierCalls := 0
        finalAggregate := none } :=
  execute_handler_error cHandleErr () rfl

/-- C3: the sink is dispatched only when the commit of the committed
batch returned success (and then with its duplicate), and a failing
commit makes `execute` return that error with the sink never invoked. -/
theorem execute_commit_before_notify (c : Collab A E Err) :
    (∀ d, (execute c).dispatched = some d →
        ∃ b, (execute c).committed = some b ∧
          c.commitResult b = Except.ok () ∧ d = duplicate b) ∧
    (∀ b e, (execute c).committed = some b →
        c.commitResult b = Except.error e →
        (execute c).result = Except.error e ∧
          (execute c).dispatched = none) := by
  cases hh : c.handle (load_aggregate c).1 with
  | error e0 =>
      constructor
      · intro d hd; simp [execute, hh] at hd
      · intro b e hb; simp [execute, hh] at hb
  | ok pr =>
      cases hc : c.commitResult (wrapLoop c (load_aggregate c).2 0 pr.2).1 with
      | error e0 =>
          constructor
          · intro d hd; simp [execute, hh, hc] at hd
          · intro b e hb hbe
            simp [execute, hh, hc] at hb
            subst hb
            rw [hc] at hbe
            cases hbe
            exact ⟨by simp [execute, hh, hc], by simp [execute, hh, hc]⟩
      | ok u =>
          constructor
          · intro d hd
            refine ⟨(wrapLoop c (load_aggregate c).2 0 pr.2).1, ?_, ?_, ?_⟩
            · simp [execute, hh, hc]
            · rw [hc]
            · simp [execute, hh, hc] at hd
              exact hd.symm
          · intro b e hb hbe
            simp [execute, hh, hc] at hb
            subst hb
            rw [hc] at hbe
            cases hbe

/-- C3 witness: with a rejecting store, `execute` surfaces the store's
error and never dispatches to the sink. -/
theorem execute_commit_before_notify_witness :
    (execute cCommitErr).result = Except.error () ∧
      (execute cCommitErr).dispatched = none :=
  (execute_commit_before_notify cCommitErr).2
    [⟨"A-1", 2, "TestAgg", 7, []⟩] () rfl rfl

/-- C4: on every successful `execute`, the sink receives the duplicate
of the committed batch, and that duplicate is the element-wise clone of
the batch — same length, same order, each element an equal copy. -/
theorem execute_duplicate_isolation (c : Collab A E Err)
    (h : (execute c).result = Except.ok ()) :
    ∃ b, (execute c).committed = some b ∧
      (execute c).dispatched = some (duplicate b) ∧
      duplicate b = b.map cloneEnvelope ∧
      (duplicate b).length = b.length ∧
      duplicate b = b := by
  cases hh : c.handle (load_aggregate c).1 with
  | error e => simp [execute, hh] at h
  | ok pr =>
      cases hc : c.commitResult (wrapLoop c (load_aggregate c).2 0 pr.2).1 with
      | error e => simp [execute, hh, hc] at h
      | ok u =>
          refine ⟨(wrapLoop c (load_aggregate c).2 0 pr.2).1,
            by simp [execute, hh, hc], by simp [execute, hh, hc],
            duplicate_eq_map _, ?_, ?_⟩
          · rw [duplicate_eq_map, List.length_map]
          · rw [duplicate_eq_map]
            exact List.map_id'' cloneEnvelope_eq _

/-- C4 witness: the successful two-event dispatch notifies the sink
with an equal, independent copy of the committed batch. -/
theorem execute_duplicate_isolation_witness :
    ∃ b, (execute cSuccess).committed = some b ∧
      (execute cSuccess).dispatched = some (duplicate b) ∧
      duplicate b = b.map cloneEnvelope ∧
      (duplicate b).length = b.length ∧
      duplicate b = b :=
  execute_duplicate_isolation cSuccess rfl

/-- C5: when the store honours its contract and returns the history
ordered by sequence ascending, `load_aggregate` is the left fold of
`apply` over the payloads from the default state, and the returned
`current_sequence` is the highest sequence number among the loaded
envelopes (0 when none exist, as the running maximum starts at 0). -/
theorem load_aggregate_fold_and_max (c : Collab A E Err)
    (hsorted : c.history.Pairwise (fun x y => x.sequence ≤ y.sequence)) :
    (load_aggregate c).1 =
      c.history.foldl (fun a env => c.apply env.payload a) c.dflt ∧
    (load_aggregate c).2 =
      (c.history.map MessageEnvelope.sequence).foldl Nat.max 0 := by
  rw [load_aggregate_split]
  exact ⟨rfl,
    foldl_seq_max_of_sorted c.history 0 hsorted (fun x _ => Nat.zero_le _)⟩

/-- C5 witness: on the ascending two-event history the fold and the
maximum (here 2) are what `load_aggregate` returns. -/
theorem load_aggregate_fold_and_max_witness :
    (load_aggregate cSorted).1 =
      cSorted.history.foldl (fun a env => cSorted.apply env.payload a)
        cSorted.dflt ∧
    (load_aggregate cSorted).2 =
      (cSorted.history.map MessageEnvelope.sequence).foldl Nat.max 0 :=
  load_aggregate_fold_and_max cSorted (by decide)

/-- C6: `wrap_events` builds one envelope per event, in production
order (the payloads, read back in order, are the event list), with the
aggregate identity and type name constant across the batch, exactly one
metadata-supplier call per event, and the i-th envelope carrying the
result of the i-th call. -/
theorem wrap_events_shape (c : Collab A E Err) (cur : Nat) (ev : List E) :
    (wrap_events c cur ev).length = ev.length ∧
    (wrap_events c cur ev).map MessageEnvelope.payload = ev ∧
    (wrap_events c cur ev).map MessageEnvelope.aggregate_id =
      List.replicate ev.length c.idString ∧
    (wrap_events c cur ev).map MessageEnvelope.aggregate_type =
      List.replicate ev.length c.aggregate_type ∧
    supplierCallsOf c cur ev = ev.length ∧
    (wrap_events c cur ev).map MessageEnvelope.metadata =
      (List.range ev.length).map c.supply := by
  refine ⟨wrapLoop_length c cur 0 ev, wrapLoop_payloads c cur 0 ev,
    (wrapLoop_ids c cur 0 ev).1, (wrapLoop_ids c cur 0 ev).2, ?_, ?_⟩
  · rw [supplierCallsOf, wrapLoop_calls, Nat.zero_add]
  · rw [wrap_events, wrapLoop_metadata, List.range_eq_range']

/-- C7: a command succeeding with zero events makes `execute` succeed,
commit an empty batch, dispatch an empty batch to the sink, and leave
the sequence counter unadvanced: appending the committed (empty) batch
to the history gives the next load the same `current_sequence`. -/
theorem execute_empty_command (c : Collab A E Err) (a : A)
    (hh : c.handle (load_aggregate c).1 = Except.ok (a, []))
    (hc : c.commitResult [] = Except.ok ()) :
    (execute c).result = Except.ok () ∧
    (execute c).committed = some [] ∧
    (execute c).dispatched = some [] ∧
    (load_aggregate { c with history := c.history ++ [] }).2 =
      (load_aggregate c).2 := by
  refine ⟨?_, ?_, ?_, by simp⟩ <;>
    simp [execute, hh, hc, wrapLoop, duplicate]

/-- C7 witness: the zero-event command over the two-event history
succeeds with empty commit and dispatch batches and an unchanged
sequence counter. -/
theorem execute_empty_command_witness :
    (execute cSorted).result = Except.ok () ∧
    (execute cSorted).committed = some [] ∧
    (execute cSorted).dispatched = some [] ∧
    (load_aggregate { cSorted with history := cSorted.history ++ [] }).2 =
      (load_aggregate cSorted).2 :=
  execute_empty_command cSorted 11 rfl rfl

/-- C8: replay is deterministic and depends only on the loaded history,
the default state and the event-application function: two dispatch
contexts agreeing on those three — even with different handlers,
metadata suppliers, stores or identities — reconstruct the same
aggregate state and `current_sequence`. -/
theorem load_aggregate_deterministic {A E Err Err2 : Type}
    (c₁ : Collab A E Err) (c₂ : Collab A E Err2)
    (hh : c₁.history = c₂.history) (hd : c₁.dflt = c₂.dflt)
    (ha : c₁.apply = c₂.apply) :
    load_aggregate c₁ = load_aggregate c₂ := by
  unfold load_aggregate
  rw [hh, hd, ha]

/-- C8 witness: the two replay contexts, differing in every collaborator
except history, default and apply, agree on the replayed state. -/
theorem load_aggregate_deterministic_witness :
    load_aggregate cRep1 = load_aggregate cRep2 :=
  load_aggregate_deterministic cRep1 cRep2 rfl rfl rfl

/-- C9 counterexample: in `cNine` the command leaves the aggregate at 0
and produces the single event 5; had the dispatcher mutated the
in-memory aggregate further by the resulting events before discarding
it, the discarded value would be 5 — but `execute` discards it at 0. -/
theorem execute_discards_unmutated_counterexample :
    (∃ b, (execute cNine).committed = some b ∧
        b.map MessageEnvelope.payload = [5]) ∧
    (execute cNine).finalAggregate = some 0 ∧
    List.foldl (fun a e => cNine.apply e a) (load_aggregate cNine).1 [5] = 5 ∧
    (0 : Nat) ≠ 5 := by
  exact ⟨⟨[⟨"A-1", 1, "TestAgg", 5, []⟩], rfl, rfl⟩, rfl, rfl, by decide⟩

/-- C9 amended: after the loaded aggregate is passed to the command
handler, the dispatcher discards it exactly as the handler left it,
applying none of the resulting events to it; the next sequence numbers
are determined from `current_sequence` and the event count alone, and
nothing is cached across invocations. -/
theorem execute_discards_handler_aggregate (c : Collab A E Err) (a : A)
    (ev : List E)
    (hh : c.handle (load_aggregate c).1 = Except.ok (a, ev)) :
    (execute c).finalAggregate = some a ∧
    ∀ b, (execute c).committed = some b →
      b.map MessageEnvelope.sequence =
        List.range' ((load_aggregate c).2 + 1) ev.length := by
  cases hc : c.commitResult (wrapLoop c (load_aggregate c).2 0 ev).1 with
  | error e =>
      constructor
      · simp [execute, hh, hc]
      · intro b hb
        simp [execute, hh, hc] at hb
        subst hb
        exact wrapLoop_sequences c (load_aggregate c).2 0 ev
  | ok u =>
      constructor
      · simp [execute, hh, hc]
      · intro b hb
        simp [execute, hh, hc] at hb
        subst hb
        exact wrapLoop_sequences c (load_aggregate c).2 0 ev

/-- C9 amended witness: in `cNine` the discarded aggregate is the value
the handler returned (0) and the committed batch's sequences come from
the counter alone. -/
theorem execute_discards_handler_aggregate_witness :
    (execute cNine).finalAggregate = some 0 ∧
    List.map MessageEnvelope.sequence
        [(⟨"A-1", 1, "TestAgg", 5, []⟩ : MessageEnvelope Nat)] =
      List.range' ((load_aggregate cNine).2 + 1) ([5] : List Nat).length := by
  have h := execute_discards_handler_aggregate cNine 0 [5] rfl
  exact ⟨h.1, h.2 [⟨"A-1", 1, "TestAgg", 5, []⟩] rfl⟩

/-- C10: for every nonempty loaded history — gapped, unsorted, starting
anywhere — `current_sequence` is exactly the sequence field of the last
envelope the store returned (no validation, count or maximum taken),
and the first newly wrapped envelope receives that value plus one. -/
theorem load_aggregate_uses_last_sequence (c : Collab A E Err)
    (hne : c.history ≠ []) :
    (load_aggregate c).2 = (c.history.getLast hne).sequence ∧
    ∀ (e : E) (rest : List E),
      ((wrap_events c (load_aggregate c).2 (e :: rest)).map
          MessageEnvelope.sequence).head? =
        some ((c.history.getLast hne).sequence + 1) := by
  have h2 : (load_aggregate c).2 = (c.history.getLast hne).sequence := by
    rw [load_aggregate_split]
    exact foldl_seq_last c.history hne 0
  refine ⟨h2, fun e rest => ?_⟩
  rw [wrap_events, wrapLoop_sequences, ← h2, List.length_cons,
    List.range'_succ, List.head?_cons]

/-- C10 witness: on the gapped, descending history `[seq 7, seq 3]` the
dispatcher takes 3 — the last returned sequence, not the maximum 7 —
and the first new envelope gets sequence 4. -/
theorem load_aggregate_uses_last_sequence_witness :
    (load_aggregate cGappy).2 = (cGappy.history.getLast (by decide)).sequence ∧
    ((wrap_events cGappy (load_aggregate cGappy).2 [9]).map
        MessageEnvelope.sequence).head? =
      some ((cGappy.history.getLast (by decide)).sequence + 1) := by
  have h := load_aggregate_uses_last_sequence cGappy (by decide)
  exact ⟨h.1, h.2 9 []⟩

end Cqrs
